import Mathlib

/-!
Shallow embedding of the go-youtube client library (package youtube):
claim search/patch parameter validation and query building (claims.go),
video listing (video.go), whitelist operations and their error remapping
(whitelists file), and the two DecodeResponse implementations
(request.go and its second copy).

Go strings are modelled as Lean String, Go slices as List, url.Values as
an association list from keys to lists of values (Add appends), and the
Go error interface as an inductive that records the dynamic type stored
in the interface (a youtube.Error value, a pointer to one, or a sentinel
made by errors.New). JSON encoding/decoding is an external library in the
source and is modelled by explicit decoder parameters.
-/

set_option autoImplicit false

namespace Youtube

/-! ## String helpers (strings.Join, strings.Index, regexp on digits) -/

/-- Model of a Go character-by-character prefix test: does the first list
occur at the head of the second. Used to model strings.Index below. -/
def leadMatch : List Char → List Char → Bool
  | [], _ => true
  | _ :: _, [] => false
  | a :: as, b :: bs => a = b && leadMatch as bs

/-- Model of substring occurrence: does the needle occur anywhere in the
haystack. strings.Index(hay, needle) > -1 in Go is hasSub needle hay. -/
def hasSub (needle : List Char) : List Char → Bool
  | [] => leadMatch needle []
  | h :: t => leadMatch needle (h :: t) || hasSub needle t

/-- Go strings.Index(hay, needle) > -1, on Lean strings. -/
def strContains (hay needle : String) : Bool :=
  hasSub needle.data hay.data

/-- ASCII digit test; the RE2 class backslash-d used by DateRegexp matches
exactly the ASCII digits 0-9. -/
def isDig (c : Char) : Bool :=
  decide ('0' ≤ c) && decide (c ≤ '9')

/-- Does the pattern of DateRegexp (four digits, dash, two digits, dash,
two digits) match starting at the head of the list (with arbitrary
remainder, since the pattern is unanchored). -/
def dateAt : List Char → Bool
  | a :: b :: c :: d :: e :: f :: g :: h :: i :: j :: _ =>
      isDig a && isDig b && isDig c && isDig d && e = '-' &&
      isDig f && isDig g && h = '-' && isDig i && isDig j
  | _ => false

/-- Does the DateRegexp pattern match anywhere in the list; this is
regexp.MatchString for the unanchored pattern of claims.go. -/
def dateSomewhere : List Char → Bool
  | [] => dateAt []
  | h :: t => dateAt (h :: t) || dateSomewhere t

/-- DateRegexp.MatchString from claims.go: the pattern is unanchored, so a
match anywhere in the string counts. -/
def DateRegexpMatchString (s : String) : Bool :=
  dateSomewhere s.data

/-- Whole-string match of the date pattern (the pattern anchored at both
ends); this is what the spec sentence for C4 asserts, not what the code
uses. -/
def dateExact : List Char → Bool
  | [a, b, c, d, e, f, g, h, i, j] =>
      isDig a && isDig b && isDig c && isDig d && e = '-' &&
      isDig f && isDig g && h = '-' && isDig i && isDig j
  | _ => false

/-- Whole-string date match on Lean strings. -/
def dateExactString (s : String) : Bool :=
  dateExact s.data

/-! ## url.Values

Go url.Values is a map from string keys to slices of values; Add appends
a value to the slice at a key; Encode emits key=value pairs with the keys
in sorted (byte-lexicographic) order, percent-encoding both sides. Map
iteration order is irrelevant because Encode sorts, so an association
list is a faithful model. -/

/-- Association-list model of url.Values. -/
def Values : Type := List (String × List String)

instance : DecidableEq Values := inferInstanceAs (DecidableEq (List (String × List String)))

/-- url.Values.Add: append a value at a key, creating the key if absent. -/
def Values.add : Values → String → String → Values
  | [], k, v => [(k, [v])]
  | (k0, l) :: rest, k, v =>
      if k0 = k then (k0, l ++ [v]) :: rest
      else (k0, l) :: Values.add rest k v

/-- Does the Values map contain the key. -/
def Values.has : Values → String → Bool
  | [], _ => false
  | (k0, _) :: rest, k => k0 == k || Values.has rest k

/-- url.Values.Get: first value at the key, or the empty string. -/
def Values.get : Values → String → String
  | [], _ => ""
  | (k0, l) :: rest, k =>
      if k0 == k then (match l with | [] => "" | v :: _ => v)
      else Values.get rest k

/-- Go url.QueryEscape on a single character: unreserved ASCII characters
pass through, space becomes a plus, everything else is percent-encoded
with uppercase hex digits. -/
def queryEscapeChar (c : Char) : List Char :=
  if ('A' ≤ c && c ≤ 'Z') || ('a' ≤ c && c ≤ 'z') || ('0' ≤ c && c ≤ '9')
     || c = '-' || c = '_' || c = '.' || c = '~' then [c]
  else if c = ' ' then ['+']
  else
    let n := c.toNat
    let hex := fun (d : Nat) => if d < 10 then Char.ofNat (48 + d) else Char.ofNat (55 + d)
    ['%', hex (n / 16 % 16), hex (n % 16)]

/-- Go url.QueryEscape (for single-byte characters, which covers every
string appearing in the claims). -/
def queryEscape (s : String) : String :=
  String.mk (s.data.flatMap queryEscapeChar)

/-- Lexicographic order on character lists by code point; on UTF-8 data
this coincides with the byte-lexicographic order Go sort.Strings uses. -/
def listLe : List Char → List Char → Bool
  | [], _ => true
  | _ :: _, [] => false
  | a :: as, b :: bs =>
      decide (a.toNat < b.toNat) || (a = b && listLe as bs)

/-- String order used for sorting query keys. -/
def strLeB (a b : String) : Bool := listLe a.data b.data

/-- Insert a string into a list sorted by the Go byte-lexicographic
order. -/
def insertSorted (x : String) : List String → List String
  | [] => [x]
  | y :: rest => if strLeB x y then x :: y :: rest else y :: insertSorted x rest

/-- Sort strings, as Go sort.Strings does inside url.Values.Encode. -/
def sortStrings : List String → List String
  | [] => []
  | x :: rest => insertSorted x (sortStrings rest)

/-- Values at a key, in insertion order (the slice v[k] in Go). -/
def Values.at : Values → String → List String
  | [], _ => []
  | (k0, l) :: rest, k => if k0 == k then l else Values.at rest k

/-- url.Values.Encode: keys sorted, each value percent-encoded and joined
with ampersands. -/
def Values.encode (vs : Values) : String :=
  let keys := sortStrings (vs.map (fun p => p.1))
  String.intercalate "&"
    (keys.flatMap (fun k => (Values.at vs k).map (fun v => queryEscape k ++ "=" ++ queryEscape v)))

/-! ## Error model

The youtube.Error type itself lives in a file that is not part of the
provided sources (only its uses are); its shape is modelled from the
spec. Modelled from the spec: an Error carries a status code, an
error-type tag, a human description and a raw body; the structured wire
schema carries the tag and the description. -/

/-- Modelled from the spec: the youtube.Error record with status code,
error-type tag, description and raw body (the spec's section 3 data
model); the zero value has code 0 and empty strings, matching a Go
zero-valued struct. -/
structure Error where
  statusCode : Nat := 0
  errorType : String := ""
  description : String := ""
  body : String := ""
deriving Repr, DecidableEq

/-- Modelled from the spec: the tag for an upstream unstructured error
(status at least 400 with an unparseable body). -/
def ErrTypeUnknown : String := "unknown"

/-- Modelled from the spec: the tag for a response body that is not valid
JSON for the expected schema. -/
def ErrTypeJSON : String := "json"

/-- Modelled from the spec: the tag for a body read failure. -/
def ErrTypeBody : String := "body"

/-- Dynamic content of a Go error interface value as this library uses
it: a youtube.Error stored by value, a pointer to a youtube.Error, or a
sentinel created with errors.New. DecodeResponse returns Error values
(return e), never pointers, which is what convertWhitelistError matches
against. -/
inductive GoErr where
  | errVal (e : Error)
  | errPtr (e : Error)
  | sentinel (msg : String)
deriving Repr, DecidableEq

instance {ε α : Type} [DecidableEq ε] [DecidableEq α] : DecidableEq (Except ε α) := fun x y =>
  match x, y with
  | Except.error a, Except.error b =>
      if h : a = b then isTrue (by rw [h])
      else isFalse (fun hh => h (by cases hh; rfl))
  | Except.error _, Except.ok _ => isFalse (fun hh => Except.noConfusion hh)
  | Except.ok _, Except.error _ => isFalse (fun hh => Except.noConfusion hh)
  | Except.ok a, Except.ok b =>
      if h : a = b then isTrue (by rw [h])
      else isFalse (fun hh => h (by cases hh; rfl))

/-- The sentinel errors.New of the claims file. -/
def ErrInvalidClaimSearchParams : GoErr := GoErr.sentinel "invalid claim search params"

/-- The sentinel for invalid patch-claims parameters. -/
def ErrInvalidPatchClaimsParams : GoErr := GoErr.sentinel "invalid patch claims params"

/-- The not-whitelisted sentinel of the whitelist file. -/
def ErrNotWhitelisted : GoErr := GoErr.sentinel "not whitelisted"

/-- The rate-limited sentinel of the whitelist file. -/
def ErrRateLimited : GoErr := GoErr.sentinel "rate limited"

/-! ## HTTP response and JSON decoding model

A response body is a pure string (ioutil.ReadAll on it cannot fail in the
model, so the ErrTypeBody branch of the source is unreachable here). The
encoding/json library is external to the repository; a decode is
modelled as a function from the input string to either a parsed value
plus the unread remainder of the stream, or a failure message plus the
unread remainder (Go json.Decoder reads from the stream through a
buffer, so after a failure a subsequent ReadAll sees only what the
decoder did not consume). -/

/-- Relevant part of an http.Response: status code and body bytes. -/
structure HttpResponse where
  statusCode : Nat
  body : String
deriving Repr, DecidableEq

/-- Outcome of one json.Decoder.Decode call: a value plus the unread rest
of the stream, or a failure message plus the unread rest. -/
inductive DecodeResult (α : Type) where
  | ok (value : α) (rest : String)
  | fail (msg : String) (rest : String)
deriving Repr, DecidableEq

/-- A JSON decoder for values of one schema, standing for
json.NewDecoder(stream).Decode(&target) of the external library. -/
structure Decoder (α : Type) where
  run : String → DecodeResult α

/-- Payload of the structured error schema. Modelled from the spec: the
wire object carries the error-type tag and the description. -/
structure ErrPayload where
  errorType : String := ""
  description : String := ""
deriving Repr, DecidableEq

/-- DecodeResponse of request.go. With status at least 400 it first reads
the whole body, then decodes the bytes as the structured error schema:
on success the parsed Error is returned with the status code attached;
on failure an ErrTypeUnknown Error carries the whole body as its
description. Below 400, a nil target returns success immediately;
otherwise the body is decoded into the target, a failure producing an
ErrTypeJSON Error whose body field is what a ReadAll after the failed
decode still finds on the stream. Result .ok none models a nil target,
.ok (some v) models the target filled with v. -/
def DecodeResponseGo {α : Type} (errDec : Decoder ErrPayload)
    (out : Option (Decoder α)) (res : HttpResponse) : Except GoErr (Option α) :=
  if 400 ≤ res.statusCode then
    let body := res.body
    match errDec.run body with
    | DecodeResult.ok e _ =>
        Except.error (GoErr.errVal
          { statusCode := res.statusCode, errorType := e.errorType,
            description := e.description, body := "" })
    | DecodeResult.fail _ _ =>
        Except.error (GoErr.errVal
          { statusCode := res.statusCode, errorType := ErrTypeUnknown,
            description := body, body := "" })
  else
    match out with
    | none => Except.ok none
    | some d =>
        match d.run res.body with
        | DecodeResult.ok v _ => Except.ok (some v)
        | DecodeResult.fail msg rest =>
            Except.error (GoErr.errVal
              { statusCode := 0, errorType := ErrTypeJSON,
                description := msg, body := rest })

/-- DecodeResponse of the second copy (the unnamed request file). With
status at least 400 it decodes straight off the stream: on success the
same Error as request.go; on failure the ErrTypeUnknown description is
only the unread remainder of the stream, not the whole body. Below 400
there is no nil-target check: Decode(nil) of encoding/json fails with
the invalid-unmarshal error (for a body that is one complete JSON value
inside the decoder buffer, the stream is then fully consumed), so a nil
target always yields an ErrTypeJSON Error here. -/
def DecodeResponsePart006 {α : Type} (errDec : Decoder ErrPayload)
    (out : Option (Decoder α)) (res : HttpResponse) : Except GoErr (Option α) :=
  if 400 ≤ res.statusCode then
    match errDec.run res.body with
    | DecodeResult.ok e _ =>
        Except.error (GoErr.errVal
          { statusCode := res.statusCode, errorType := e.errorType,
            description := e.description, body := "" })
    | DecodeResult.fail _ rest =>
        Except.error (GoErr.errVal
          { statusCode := res.statusCode, errorType := ErrTypeUnknown,
            description := rest, body := "" })
  else
    match out with
    | none =>
        Except.error (GoErr.errVal
          { statusCode := 0, errorType := ErrTypeJSON,
            description := "json: Unmarshal(nil)", body := "" })
    | some d =>
        match d.run res.body with
        | DecodeResult.ok v _ => Except.ok (some v)
        | DecodeResult.fail msg rest =>
            Except.error (GoErr.errVal
              { statusCode := 0, errorType := ErrTypeJSON,
                description := msg, body := rest })

/-! ## Requests and runners

A Request carries method, URL, query values, and an optional JSON-object
body; json.Marshal of the string-valued maps the source builds is
modelled as the field list with keys in sorted order (as Go emits map
keys). A runner is a function from a request to a response or a
transport error; operations are written in explicit request-logging
style, returning alongside the result the list of requests they pushed
through the runner, so that "no request is issued" is a statement about
the log. -/

/-- Base URLs from the source. -/
def BaseUrlV3 : String := "https://www.googleapis.com/youtube/v3"

/-- Base URL of the partner API. -/
def YoutubePartnerV1 : String := "https://www.googleapis.com/youtube/partner/v1"

/-- Endpoint of claim search. -/
def SearchClaimsUrl : String := YoutubePartnerV1 ++ "/claimSearch"

/-- Endpoint of claim patch. -/
def PatchClaimUrl : String := YoutubePartnerV1 ++ "/claims"

/-- Endpoint of the whitelist operations. -/
def WhitelistUrl : String := YoutubePartnerV1 ++ "/whitelists"

/-- Endpoint of video listing. -/
def ListVideosUrl : String := BaseUrlV3 ++ "/videos"

/-- The Request value object of request.go; the body, when present, is
the field list of the marshalled JSON object. -/
structure Request where
  method : String
  url : String
  params : Values
  body : Option (List (String × String)) := none
deriving DecidableEq

/-- A RequestRunner: the single Run method, as a pure function. -/
def RunnerFun : Type := Request → Except GoErr HttpResponse

/-- Whitelist error remapping of the whitelist file. The source performs
a dynamic type assertion err.(*Error): only an error whose dynamic type
is a pointer to Error enters the remap; a value Error, or any sentinel,
falls through unchanged. -/
def convertWhitelistErrorE (err : GoErr) : GoErr :=
  match err with
  | GoErr.errPtr v =>
      if v.statusCode = 404 then ErrNotWhitelisted
      else if v.statusCode = 403 && strContains v.body "quotaExceeded" then ErrRateLimited
      else err
  | _ => err

/-- convertWhitelistError including the nil guard (none models a nil
error). -/
def convertWhitelistError : Option GoErr → Option GoErr
  | none => none
  | some e => some (convertWhitelistErrorE e)

/-! ## Claim search and patch (claims.go) -/

/-- The eight claim-status constants. -/
def ClaimStatusActive : String := "active"

/-- Appealed status constant. -/
def ClaimStatusAppealed : String := "appealed"

/-- Disputed status constant. -/
def ClaimStatusDisputed : String := "disputed"

/-- Inactive status constant. -/
def ClaimStatusInactive : String := "inactive"

/-- Pending status constant. -/
def ClaimStatusPending : String := "pending"

/-- Potential status constant. -/
def ClaimStatusPotential : String := "potential"

/-- RoutedForReview status constant. -/
def ClaimStatusRoutedForReview : String := "routedForReview"

/-- Takedown status constant. -/
def ClaimStatusTakedown : String := "takedown"

/-- Sort constant date. -/
def ClaimSortDate : String := "date"

/-- Sort constant viewCount. -/
def ClaimSortViewCount : String := "viewCount"

/-- ClaimStatus.Valid of claims.go: the switch over the eight constants. -/
def ClaimStatusValid (s : String) : Bool :=
  s == ClaimStatusActive || s == ClaimStatusAppealed || s == ClaimStatusDisputed ||
  s == ClaimStatusInactive || s == ClaimStatusPending || s == ClaimStatusPotential ||
  s == ClaimStatusRoutedForReview || s == ClaimStatusTakedown

/-- SearchClaimsParams of claims.go; the field defaults are the Go zero
values. -/
structure SearchClaimsParams where
  assetId : String := ""
  q : String := ""
  referenceId : String := ""
  videoIds : List String := []
  pageToken : String := ""
  status : String := ""
  includeThirdPartyClaims : Bool := false
  onBehalfOfContentOwner : String := ""
  sort : String := ""
  statusModifiedAfter : String := ""
deriving Repr, DecidableEq

/-- Count of the non-empty strings in a list; the loop of Validate
increments a counter for each non-empty entry and returns false as soon
as it exceeds one, which decides exactly the predicate countNE l > 1. -/
def countNE : List String → Nat
  | [] => 0
  | s :: rest => (if s ≠ "" then 1 else 0) + countNE rest

/-- How many of the four ID/query filter fields are set (the videoIds
slice counts through its comma join, exactly as Validate reads it). -/
def SearchClaimsParams.filterCount (p : SearchClaimsParams) : Nat :=
  countNE [p.assetId, p.q, p.referenceId, String.intercalate "," p.videoIds]

/-- SearchClaimsParams.Validate of claims.go. Note that the required list
the loop walks contains the status string alongside the four filter
fields, so the counter also counts a set status. -/
def SearchClaimsParams.Validate (p : SearchClaimsParams) : Bool :=
  let required := [p.assetId, p.q, p.referenceId,
    String.intercalate "," p.videoIds, p.status]
  let count := countNE required
  if count > 1 then false
  else if p.status = "" || !(ClaimStatusValid p.status) then false
  else true

/-- SearchClaimsParams.Values of claims.go; the sort switch is written as
the if-chain it denotes. -/
def SearchClaimsParams.Values (p : SearchClaimsParams) : Youtube.Values :=
  let vals : Youtube.Values := []
  let vals := if p.assetId ≠ "" then vals.add "assetId" p.assetId else vals
  let vals := if p.q ≠ "" then vals.add "q" p.q else vals
  let vals := if p.referenceId ≠ "" then vals.add "referenceId" p.referenceId else vals
  let vals := if p.videoIds.length > 0 then
      vals.add "videoId" (String.intercalate "," p.videoIds) else vals
  let vals := if p.status ≠ "" then vals.add "status" p.status else vals
  let vals := if p.includeThirdPartyClaims then
      vals.add "includeThirdPartyClaims" "true"
    else
      vals.add "includeThirdPartyClaims" "false"
  let vals := if p.onBehalfOfContentOwner ≠ "" then
      vals.add "onBehalfOfContentOwner" p.onBehalfOfContentOwner else vals
  let vals := if p.pageToken ≠ "" then vals.add "pageToken" p.pageToken else vals
  let vals := if p.sort = ClaimSortDate then vals.add "sort" "date"
    else if p.sort = ClaimSortViewCount then vals.add "sort" "viewCount"
    else vals
  let vals := if p.statusModifiedAfter ≠ "" && DateRegexpMatchString p.statusModifiedAfter then
      vals.add "statusModifiedAfter" p.statusModifiedAfter else vals
  vals

/-- The Claim resource of claims.go (fields defaulted to Go zero
values). -/
structure Claim where
  assetId : String := ""
  blockOutsideOwnership : Bool := false
  contentType : String := ""
  id : String := ""
  isPartnerUploaded : Bool := false
  kind : String := ""
  status : String := ""
  timeCreated : String := ""
  timeStatusLastModified : String := ""
  videoId : String := ""
deriving Repr, DecidableEq

/-- PatchClaimsParams of claims.go. -/
structure PatchClaimsParams where
  claimId : String := ""
  onBehalfOfContentOwner : String := ""
  status : String := ""
deriving Repr, DecidableEq

/-- PatchClaimsParams.Validate. -/
def PatchClaimsParams.Validate (p : PatchClaimsParams) : Bool :=
  p.claimId != "" && p.status != "" && ClaimStatusValid p.status

/-- PatchClaimsParams.Url. -/
def PatchClaimsParams.UrlOf (p : PatchClaimsParams) : String :=
  PatchClaimUrl ++ "/" ++ p.claimId

/-- PatchClaimsParams.Params; Set on a fresh map is Add. -/
def PatchClaimsParams.Params (p : PatchClaimsParams) : Youtube.Values :=
  if p.onBehalfOfContentOwner ≠ "" then
    Values.add [] "onBehalfOfContentOwner" p.onBehalfOfContentOwner
  else []

/-- PatchClaimsParams.Body: the map gets a status entry only when the
status is non-empty and valid; an empty map is the invalid-params error;
json.Marshal of a string-valued map cannot fail. -/
def PatchClaimsParams.BodyOf (p : PatchClaimsParams) : Except GoErr (List (String × String)) :=
  let m : List (String × String) :=
    if p.status ≠ "" && ClaimStatusValid p.status then [("status", p.status)] else []
  if m.length = 0 then Except.error ErrInvalidPatchClaimsParams
  else Except.ok m

/-- PatchClaims of claims.go, in request-logging style: the second
component lists every request pushed through the runner. The nil-target
case of DecodeResponse cannot arise with a supplied target; the getD
zero value mirrors the zero-valued out variable. -/
def PatchClaimsR (errDec : Decoder ErrPayload) (outDec : Decoder Claim)
    (runner : RunnerFun) (p : PatchClaimsParams) :
    Except GoErr Claim × List Request :=
  if !p.Validate then (Except.error ErrInvalidPatchClaimsParams, [])
  else
    match p.BodyOf with
    | Except.error e => (Except.error e, [])
    | Except.ok body =>
        let req : Request :=
          { method := "PATCH", url := p.UrlOf, params := p.Params, body := some body }
        (match runner req with
         | Except.error e => Except.error e
         | Except.ok res =>
             match DecodeResponseGo errDec (some outDec) res with
             | Except.error e => Except.error e
             | Except.ok w => Except.ok (w.getD {}),
         [req])

/-! ## Video listing (video.go) -/

/-- ListVideoParams of video.go; parts are modelled as their strings. -/
structure ListVideoParams where
  parts : List String := []
  ids : List String := []
  pageToken : String := ""
deriving Repr, DecidableEq

/-- convertParts of video.go: the copy loop turns each part into its
string; on an empty slice it returns an empty slice. -/
def ListVideoParams.convertParts (o : ListVideoParams) : List String :=
  if o.parts.length = 0 then [] else o.parts

/-- ListVideoParams.Values of video.go: part always added; pageToken, if
non-empty, wins over the id filter. -/
def ListVideoParams.Values (o : ListVideoParams) : Youtube.Values :=
  let vals : Youtube.Values := []
  let vals := vals.add "part" (String.intercalate "," o.convertParts)
  if o.pageToken ≠ "" then vals.add "pageToken" o.pageToken
  else if o.ids.length > 0 then vals.add "id" (String.intercalate "," o.ids)
  else vals

/-- PageInfo resource. -/
structure PageInfo where
  resultsPerPage : Int := 0
  totalResults : Int := 0
deriving Repr, DecidableEq

/-- VideoSnippet resource (fields of video.go). -/
structure VideoSnippet where
  categoryId : String := ""
  channelId : String := ""
  channelTitle : String := ""
  description : String := ""
  publishedAt : String := ""
  tags : List String := []
  title : String := ""
deriving Repr, DecidableEq

/-- Video resource. -/
structure Video where
  id : String := ""
  snippet : Option VideoSnippet := none
deriving Repr, DecidableEq

/-- ListVideosResponse resource. -/
structure ListVideosResponse where
  items : List Video := []
  nextPageToken : String := ""
  pageInfo : Option PageInfo := none
deriving Repr, DecidableEq

/-- ListVideos of video.go, request-logging style. -/
def ListVideosR (errDec : Decoder ErrPayload) (outDec : Decoder ListVideosResponse)
    (runner : RunnerFun) (p : ListVideoParams) :
    Except GoErr ListVideosResponse × List Request :=
  let req : Request :=
    { method := "GET", url := ListVideosUrl, params := p.Values, body := none }
  (match runner req with
   | Except.error e => Except.error e
   | Except.ok res =>
       match DecodeResponseGo errDec (some outDec) res with
       | Except.error e => Except.error e
       | Except.ok w => Except.ok (w.getD {}),
   [req])

/-! ## Whitelist operations (the unnamed whitelist file) -/

/-- Whitelist resource. -/
structure Whitelist where
  id : String := ""
  title : String := ""
deriving Repr, DecidableEq

/-- GetWhitelistParams. -/
structure GetWhitelistParams where
  id : String := ""
  onBehalfOfContentOwner : String := ""
deriving Repr, DecidableEq

/-- GetWhitelistParams.Values: the content-owner key is always added,
even when empty. -/
def GetWhitelistParams.Values (p : GetWhitelistParams) : Youtube.Values :=
  Values.add [] "onBehalfOfContentOwner" p.onBehalfOfContentOwner

/-- InsertWhitelistParams. -/
structure InsertWhitelistParams where
  id : String := ""
  onBehalfOfContentOwner : String := ""
deriving Repr, DecidableEq

/-- InsertWhitelistParams.Body: json.Marshal of the two-entry map, keys
in sorted order as Go emits them. -/
def InsertWhitelistParams.BodyOf (p : InsertWhitelistParams) : List (String × String) :=
  [("id", p.id), ("kind", "youtubePartner#whitelist")]

/-- InsertWhitelistParams.Values: the content-owner key is always added. -/
def InsertWhitelistParams.Values (p : InsertWhitelistParams) : Youtube.Values :=
  Values.add [] "onBehalfOfContentOwner" p.onBehalfOfContentOwner

/-- DeleteWhitelistParams. -/
structure DeleteWhitelistParams where
  id : String := ""
  onBehalfOfContentOwner : String := ""
deriving Repr, DecidableEq

/-- DeleteWhitelistParams.Values. -/
def DeleteWhitelistParams.Values (p : DeleteWhitelistParams) : Youtube.Values :=
  Values.add [] "onBehalfOfContentOwner" p.onBehalfOfContentOwner

/-- GetWhitelist, request-logging style: no validation of the id; one
request is always issued; a decode error goes through
convertWhitelistErrorE. -/
def GetWhitelistR (errDec : Decoder ErrPayload) (outDec : Decoder Whitelist)
    (runner : RunnerFun) (p : GetWhitelistParams) :
    Except GoErr Whitelist × List Request :=
  let req : Request :=
    { method := "GET", url := WhitelistUrl ++ "/" ++ p.id, params := p.Values, body := none }
  (match runner req with
   | Except.error e => Except.error e
   | Except.ok res =>
       match DecodeResponseGo errDec (some outDec) res with
       | Except.error e => Except.error (convertWhitelistErrorE e)
       | Except.ok w => Except.ok (w.getD {}),
   [req])

/-- InsertWhitelist, request-logging style. -/
def InsertWhitelistR (errDec : Decoder ErrPayload) (outDec : Decoder Whitelist)
    (runner : RunnerFun) (p : InsertWhitelistParams) :
    Except GoErr Whitelist × List Request :=
  let req : Request :=
    { method := "POST", url := WhitelistUrl, params := p.Values, body := some p.BodyOf }
  (match runner req with
   | Except.error e => Except.error e
   | Except.ok res =>
       match DecodeResponseGo errDec (some outDec) res with
       | Except.error e => Except.error (convertWhitelistErrorE e)
       | Except.ok w => Except.ok (w.getD {}),
   [req])

/-- DeleteWhitelist, request-logging style: DecodeResponse runs with a
nil target and its outcome goes through convertWhitelistError. -/
def DeleteWhitelistR (errDec : Decoder ErrPayload)
    (runner : RunnerFun) (p : DeleteWhitelistParams) :
    Option GoErr × List Request :=
  let req : Request :=
    { method := "DELETE", url := WhitelistUrl ++ "/" ++ p.id, params := p.Values, body := none }
  (match runner req with
   | Except.error e => some e
   | Except.ok res =>
       match DecodeResponseGo (α := Unit) errDec none res with
       | Except.error e => convertWhitelistError (some e)
       | Except.ok _ => convertWhitelistError none,
   [req])

/-! ## Helper lemmas -/

/-- Key membership after an Add: the added key or an existing key. -/
theorem Values.has_add (vs : Values) (k v k2 : String) :
    (vs.add k v).has k2 = (k == k2 || vs.has k2) := by
  induction vs with
  | nil => simp [Values.add, Values.has]
  | cons p rest ih =>
      obtain ⟨k0, l⟩ := p
      by_cases hk : k0 = k
      · subst hk; simp [Values.add, Values.has]
      · simp [Values.add, Values.has, hk, ih, Bool.or_left_comm]

/-- Key membership after a conditional Add. -/
theorem Values.has_addIf (c : Prop) [Decidable c] (vs : Values) (k v k2 : String) :
    ((if c then vs.add k v else vs).has k2) = ((decide c && (k == k2)) || vs.has k2) := by
  by_cases h : c <;> simp [h, Values.has_add]

/-- The five-entry required list of Validate counts the four filters plus
the status bit. -/
theorem countNE_required (p : SearchClaimsParams) :
    countNE [p.assetId, p.q, p.referenceId, String.intercalate "," p.videoIds, p.status]
      = p.filterCount + (if p.status ≠ "" then 1 else 0) := by
  simp only [countNE, SearchClaimsParams.filterCount]
  split_ifs <;> omega

/-! ## C1 -/

/-- C1 (amended): Validate returns false whenever more than one of the
four ID/query filter fields is set, or the status is empty or not one of
the eight recognized claim statuses. (The original claim also asserted
falsity when zero filters are set, which the code does not do: a valid
status alone validates.) -/
theorem searchClaims_validate_false_cases (p : SearchClaimsParams)
    (h : 1 < p.filterCount ∨ p.status = "" ∨ ClaimStatusValid p.status = false) :
    p.Validate = false := by
  simp only [SearchClaimsParams.Validate]
  rcases h with h | h | h
  · have hgt : countNE [p.assetId, p.q, p.referenceId,
        String.intercalate "," p.videoIds, p.status] > 1 := by
      rw [countNE_required]; omega
    simp [hgt]
  · by_cases h1 : countNE [p.assetId, p.q, p.referenceId,
        String.intercalate "," p.videoIds, p.status] > 1
    · simp [h1]
    · simp [h1, h]
  · by_cases h1 : countNE [p.assetId, p.q, p.referenceId,
        String.intercalate "," p.videoIds, p.status] > 1
    · simp [h1]
    · simp [h1, h]

/-- Witness for C1: with both assetId and q set (two filters), Validate
is false. -/
theorem searchClaims_validate_false_cases_witness :
    (1 < SearchClaimsParams.filterCount
        { assetId := "a", q := "b", status := "active" } ∨
      ({ assetId := "a", q := "b", status := "active" } : SearchClaimsParams).status = "" ∨
      ClaimStatusValid ({ assetId := "a", q := "b", status := "active" } : SearchClaimsParams).status = false) ∧
    SearchClaimsParams.Validate { assetId := "a", q := "b", status := "active" } = false :=
  ⟨Or.inl (by decide),
   searchClaims_validate_false_cases { assetId := "a", q := "b", status := "active" }
     (Or.inl (by decide))⟩

/-- Counterexample for C1 as stated: with zero of the four filter fields
set and a valid status, Validate returns true, while the claim demands
false when zero filters are set. -/
theorem searchClaims_validate_zero_filters_counterexample :
    SearchClaimsParams.filterCount { status := "active" } = 0 ∧
    ClaimStatusValid "active" = true ∧
    SearchClaimsParams.Validate { status := "active" } = true := by
  decide

/-! ## C2 -/

/-- C2: the code contradicts the claim (and its own documentation
comment): with exactly one filter set (assetId) and a valid status, the
loop of Validate counts the status string alongside the filters, reaches
two, and returns false, although the function comment says exactly one
ID filter is required and a provided status lifts even that requirement.
This theorem evaluates the code at the failing input. -/
theorem searchClaims_validate_filter_with_status_code_bug :
    SearchClaimsParams.filterCount { assetId := "a", status := "active" } = 1 ∧
    ClaimStatusValid "active" = true ∧
    SearchClaimsParams.Validate { assetId := "a", status := "active" } = false := by
  decide

/-! ## C4 -/

/-- C4 (amended): for every valid parameter set, Values emits the
statusModifiedAfter key exactly when the supplied string is non-empty
and the unanchored date pattern matches somewhere inside it (the regexp
of claims.go has no anchors, so a whole-string match is not required). -/
theorem searchClaims_values_statusModifiedAfter (p : SearchClaimsParams)
    (_hv : p.Validate = true) :
    (p.Values).has "statusModifiedAfter"
      = (decide (p.statusModifiedAfter ≠ "") && DateRegexpMatchString p.statusModifiedAfter) := by
  simp only [SearchClaimsParams.Values]
  simp [Values.has_addIf, apply_ite (fun vs => Values.has vs "statusModifiedAfter"),
    Values.has_add, Values.has]

/-- Witness for C4: a valid parameter set whose date string matches the
pattern exactly; the key is emitted. -/
theorem searchClaims_values_statusModifiedAfter_witness :
    SearchClaimsParams.Validate { status := "active", statusModifiedAfter := "2016-06-30" } = true ∧
    (SearchClaimsParams.Values { status := "active", statusModifiedAfter := "2016-06-30" }).has
        "statusModifiedAfter"
      = (decide (("2016-06-30" : String) ≠ "") && DateRegexpMatchString "2016-06-30") :=
  ⟨by decide,
   searchClaims_values_statusModifiedAfter
     { status := "active", statusModifiedAfter := "2016-06-30" } (by decide)⟩

/-- Counterexample for C4 as stated: the string 2016-06-301 is not a
whole-string match of the date pattern, yet the key is emitted, because
the regexp of claims.go is unanchored. -/
theorem searchClaims_values_statusModifiedAfter_counterexample :
    SearchClaimsParams.Validate { status := "active", statusModifiedAfter := "2016-06-301" } = true ∧
    dateExactString "2016-06-301" = false ∧
    (SearchClaimsParams.Values { status := "active", statusModifiedAfter := "2016-06-301" }).has
        "statusModifiedAfter" = true := by
  decide

/-! ## Sample decoders and runners for closed witnesses -/

/-- The concrete 404 body used by the spec's C7 scenario. -/
def notFoundBody : String := "\x7b\"error\":\"not_found\"\x7d"

/-- A concrete stand-in for the encoding/json decode of the structured
error schema: it parses the C7 body to its payload and fails on
everything else without consuming input. -/
def sampleErrDec : Decoder ErrPayload :=
  ⟨fun s => if s == notFoundBody then DecodeResult.ok { errorType := "not_found" } ""
            else DecodeResult.fail "invalid character" s⟩

/-- A decoder that always succeeds with a zero-valued Claim. -/
def sampleClaimDec : Decoder Claim := ⟨fun _ => DecodeResult.ok {} ""⟩

/-- A decoder that always succeeds with a zero-valued Whitelist. -/
def sampleWhitelistDec : Decoder Whitelist := ⟨fun _ => DecodeResult.ok {} ""⟩

/-- A decoder that always succeeds with a zero-valued list response. -/
def sampleListDec : Decoder ListVideosResponse := ⟨fun _ => DecodeResult.ok {} ""⟩

/-- A runner that fails with a transport error on every request. -/
def sampleRunnerFail : RunnerFun := fun _ => Except.error (GoErr.sentinel "transport failed")

/-! ## C5 -/

/-- C5: with an empty or invalid status, Body returns the patch-params
error, and PatchClaims returns that error with an empty request log (no
request reaches the runner, whatever the runner is). -/
theorem patchClaims_invalid_status_no_request (errDec : Decoder ErrPayload)
    (outDec : Decoder Claim) (runner : RunnerFun) (p : PatchClaimsParams)
    (h : p.status = "" ∨ ClaimStatusValid p.status = false) :
    p.BodyOf = Except.error ErrInvalidPatchClaimsParams ∧
    PatchClaimsR errDec outDec runner p = (Except.error ErrInvalidPatchClaimsParams, []) := by
  have hb : p.BodyOf = Except.error ErrInvalidPatchClaimsParams := by
    simp only [PatchClaimsParams.BodyOf]
    rcases h with h | h <;> simp [h]
  have hval : p.Validate = false := by
    simp only [PatchClaimsParams.Validate]
    rcases h with h | h <;> simp [h]
  exact ⟨hb, by simp [PatchClaimsR, hval]⟩

/-- Witness for C5 at the concrete input claimId c, status bogus. -/
theorem patchClaims_invalid_status_no_request_witness :
    (({ claimId := "c", status := "bogus" } : PatchClaimsParams).status = "" ∨
      ClaimStatusValid ({ claimId := "c", status := "bogus" } : PatchClaimsParams).status = false) ∧
    PatchClaimsParams.BodyOf { claimId := "c", status := "bogus" }
      = Except.error ErrInvalidPatchClaimsParams ∧
    PatchClaimsR sampleErrDec sampleClaimDec sampleRunnerFail { claimId := "c", status := "bogus" }
      = (Except.error ErrInvalidPatchClaimsParams, []) :=
  ⟨Or.inr (by decide),
   (patchClaims_invalid_status_no_request sampleErrDec sampleClaimDec sampleRunnerFail
      { claimId := "c", status := "bogus" } (Or.inr (by decide))).1,
   (patchClaims_invalid_status_no_request sampleErrDec sampleClaimDec sampleRunnerFail
      { claimId := "c", status := "bogus" } (Or.inr (by decide))).2⟩

/-! ## C6 -/

/-- C6: Values of ListVideoParams always carries the part key (with the
empty string as its value when no parts are given), and whenever a page
token is present the id key is absent, Ids notwithstanding. -/
theorem listVideo_values_part_and_pageToken (o : ListVideoParams) :
    (ListVideoParams.Values o).has "part" = true ∧
    (o.parts = [] → (ListVideoParams.Values o).get "part" = "") ∧
    (o.pageToken ≠ "" → (ListVideoParams.Values o).has "id" = false) := by
  refine ⟨?_, ?_, ?_⟩
  · simp only [ListVideoParams.Values]
    split_ifs <;> simp [Values.add, Values.has]
  · intro h
    simp only [ListVideoParams.Values, ListVideoParams.convertParts, h]
    split_ifs <;> simp [Values.add, Values.get, String.intercalate]
  · intro h
    simp only [ListVideoParams.Values]
    simp [h, Values.add, Values.has]

/-- Witness for C6 at empty parts, one id, and a page token. -/
theorem listVideo_values_part_and_pageToken_witness :
    (ListVideoParams.Values { parts := [], ids := ["x"], pageToken := "tok" }).has "part" = true ∧
    (ListVideoParams.Values { parts := [], ids := ["x"], pageToken := "tok" }).get "part" = "" ∧
    (ListVideoParams.Values { parts := [], ids := ["x"], pageToken := "tok" }).has "id" = false :=
  ⟨(listVideo_values_part_and_pageToken { parts := [], ids := ["x"], pageToken := "tok" }).1,
   (listVideo_values_part_and_pageToken { parts := [], ids := ["x"], pageToken := "tok" }).2.1 rfl,
   (listVideo_values_part_and_pageToken { parts := [], ids := ["x"], pageToken := "tok" }).2.2
     (by decide)⟩

/-! ## C7 -/

/-- C7: a 404 response whose body parses under the structured error
schema yields the typed error with status 404 and the parsed payload,
and its tag is the parsed one, not the unknown or JSON decode-failure
tag. The structured schema itself is modelled from the spec (the Error
type is defined outside the provided sources). -/
theorem decodeResponse_structured_404 {α : Type} (errDec : Decoder ErrPayload)
    (t : Option (Decoder α)) (p : ErrPayload) (rest : String)
    (hparse : errDec.run notFoundBody = DecodeResult.ok p rest)
    (hp : p.errorType = "not_found") :
    DecodeResponseGo errDec t { statusCode := 404, body := notFoundBody }
      = Except.error (GoErr.errVal
          { statusCode := 404, errorType := "not_found",
            description := p.description, body := "" }) ∧
    ("not_found" ≠ ErrTypeUnknown ∧ "not_found" ≠ ErrTypeJSON) :=
  ⟨by simp [DecodeResponseGo, hparse, hp], by decide, by decide⟩

/-- Witness for C7 with the sample decoder for the structured schema. -/
theorem decodeResponse_structured_404_witness :
    sampleErrDec.run notFoundBody = DecodeResult.ok { errorType := "not_found" } "" ∧
    ({ errorType := "not_found" } : ErrPayload).errorType = "not_found" ∧
    (DecodeResponseGo (α := Whitelist) sampleErrDec none { statusCode := 404, body := notFoundBody }
        = Except.error (GoErr.errVal
            { statusCode := 404, errorType := "not_found", description := "", body := "" }) ∧
      ("not_found" ≠ ErrTypeUnknown ∧ "not_found" ≠ ErrTypeJSON)) :=
  ⟨by decide, rfl,
   decodeResponse_structured_404 sampleErrDec none { errorType := "not_found" } ""
     (by decide) rfl⟩

/-! ## C3 -/

/-- C3: the remap never fires on errors produced by DecodeResponse.
DecodeResponse stores an Error by value in the error interface, while
convertWhitelistError performs the dynamic assertion err.(*Error), which
only matches a pointer; so a 404 typed error passes through unchanged
instead of becoming the not-whitelisted sentinel, shown here both in
general and end to end on GetWhitelist against a 404 response. -/
theorem convertWhitelistError_misses_remap :
    (∀ e : Error, convertWhitelistErrorE (GoErr.errVal e) = GoErr.errVal e) ∧
    DecodeResponseGo (α := Whitelist) sampleErrDec (some sampleWhitelistDec)
        { statusCode := 404, body := notFoundBody }
      = Except.error (GoErr.errVal
          { statusCode := 404, errorType := "not_found", description := "", body := "" }) ∧
    convertWhitelistErrorE (GoErr.errVal
        { statusCode := 404, errorType := "not_found", description := "", body := "" })
      ≠ ErrNotWhitelisted ∧
    GetWhitelistR sampleErrDec sampleWhitelistDec
        (fun _ => Except.ok { statusCode := 404, body := notFoundBody }) { id := "chan" }
      = (Except.error (GoErr.errVal
            { statusCode := 404, errorType := "not_found", description := "", body := "" }),
         [{ method := "GET", url := WhitelistUrl ++ "/" ++ "chan",
            params := Values.add [] "onBehalfOfContentOwner" "", body := none }]) :=
  ⟨fun _ => rfl, by decide, by decide, by decide⟩

/-! ## C8 -/

/-- Request log of GetWhitelist is always the one request it builds. -/
theorem getWhitelistR_log (errDec : Decoder ErrPayload) (wdec : Decoder Whitelist)
    (runner : RunnerFun) (p : GetWhitelistParams) :
    (GetWhitelistR errDec wdec runner p).2
      = [{ method := "GET", url := WhitelistUrl ++ "/" ++ p.id, params := p.Values, body := none }] :=
  rfl

/-- Request log of InsertWhitelist is always the one request it builds. -/
theorem insertWhitelistR_log (errDec : Decoder ErrPayload) (wdec : Decoder Whitelist)
    (runner : RunnerFun) (p : InsertWhitelistParams) :
    (InsertWhitelistR errDec wdec runner p).2
      = [{ method := "POST", url := WhitelistUrl, params := p.Values, body := some p.BodyOf }] :=
  rfl

/-- Request log of DeleteWhitelist is always the one request it builds. -/
theorem deleteWhitelistR_log (errDec : Decoder ErrPayload)
    (runner : RunnerFun) (p : DeleteWhitelistParams) :
    (DeleteWhitelistR errDec runner p).2
      = [{ method := "DELETE", url := WhitelistUrl ++ "/" ++ p.id, params := p.Values, body := none }] :=
  rfl

/-- C8 (amended): none of the three whitelist operations validates the
channel ID locally; each issues exactly one request through the runner,
with the URL built from the possibly-empty ID, for every parameter
value. (The original claim asserted that an empty channel ID fails
locally with no request issued, which the code does not do.) -/
theorem whitelist_ops_always_issue_one_request (errDec : Decoder ErrPayload)
    (wdec : Decoder Whitelist) (runner : RunnerFun)
    (pg : GetWhitelistParams) (pi : InsertWhitelistParams) (pd : DeleteWhitelistParams) :
    (GetWhitelistR errDec wdec runner pg).2
      = [{ method := "GET", url := WhitelistUrl ++ "/" ++ pg.id, params := pg.Values, body := none }] ∧
    (InsertWhitelistR errDec wdec runner pi).2
      = [{ method := "POST", url := WhitelistUrl, params := pi.Values, body := some pi.BodyOf }] ∧
    (DeleteWhitelistR errDec runner pd).2
      = [{ method := "DELETE", url := WhitelistUrl ++ "/" ++ pd.id, params := pd.Values, body := none }] :=
  ⟨getWhitelistR_log errDec wdec runner pg,
   insertWhitelistR_log errDec wdec runner pi,
   deleteWhitelistR_log errDec runner pd⟩

/-- Counterexample for C8 as stated: a GetWhitelist call with an empty
channel ID issues a request (the log is non-empty) and surfaces the
transport error, rather than failing with a local validation error and
issuing nothing. -/
theorem whitelist_empty_id_counterexample :
    GetWhitelistR sampleErrDec sampleWhitelistDec sampleRunnerFail { id := "" }
      = (Except.error (GoErr.sentinel "transport failed"),
         [{ method := "GET", url := WhitelistUrl ++ "/" ++ "",
            params := Values.add [] "onBehalfOfContentOwner" "", body := none }]) ∧
    (GetWhitelistR sampleErrDec sampleWhitelistDec sampleRunnerFail { id := "" }).2 ≠ [] := by
  decide

/-! ## C9 -/

/-- Request log of ListVideos is always the one request it builds. -/
theorem listVideosR_log (errDec : Decoder ErrPayload) (outDec : Decoder ListVideosResponse)
    (runner : RunnerFun) (p : ListVideoParams) :
    (ListVideosR errDec outDec runner p).2
      = [{ method := "GET", url := ListVideosUrl, params := p.Values, body := none }] :=
  rfl

/-- C9 (amended): for Parts snippet, Ids abc123 and no page token, the
request ListVideos issues has, once the runner appends the encoded
Values to the URL, exactly the query string id=abc123 then
part=snippet, because url.Values.Encode emits keys in sorted order. -/
theorem listVideos_query_string (errDec : Decoder ErrPayload)
    (outDec : Decoder ListVideosResponse) (runner : RunnerFun) :
    ((ListVideosR errDec outDec runner { parts := ["snippet"], ids := ["abc123"] }).2).map
        (fun r => r.url ++ "?" ++ r.params.encode)
      = [ListVideosUrl ++ "?id=abc123&part=snippet"] := by
  rw [listVideosR_log]
  decide

/-- Counterexample for C9 as stated: the encoded query string is the
sorted id=abc123 then part=snippet, not part=snippet then id=abc123 as
the claim puts it. -/
theorem listVideos_query_order_counterexample :
    Values.encode (ListVideoParams.Values { parts := ["snippet"], ids := ["abc123"] })
      = "id=abc123&part=snippet" ∧
    Values.encode (ListVideoParams.Values { parts := ["snippet"], ids := ["abc123"] })
      ≠ "part=snippet&id=abc123" := by
  decide

/-! ## C10 -/

/-- C10 (amended): with a non-nil target, the two DecodeResponse copies
agree on every response, provided that on an error-status response whose
body fails to parse as the structured schema the failed parse leaves the
whole body unread (otherwise the copy that decodes straight off the
stream reports only the unread remainder as the description, while
request.go, which pre-reads the body, reports all of it; and with a nil
target the copies disagree on every success response). -/
theorem decodeResponse_copies_agree {α : Type} (errDec : Decoder ErrPayload)
    (d : Decoder α) (res : HttpResponse)
    (h : ∀ msg rest, errDec.run res.body = DecodeResult.fail msg rest → rest = res.body) :
    DecodeResponseGo errDec (some d) res = DecodeResponsePart006 errDec (some d) res := by
  simp only [DecodeResponseGo, DecodeResponsePart006]
  by_cases hs : 400 ≤ res.statusCode
  · simp only [if_pos hs]
    rcases hrun : errDec.run res.body with ⟨e, r⟩ | ⟨m, r⟩
    · simp [hrun]
    · have := h m r hrun
      subst this
      simp [hrun]
  · simp only [if_neg hs]

/-- A decoder that fails on every input without consuming any of it. -/
def constFailDec : Decoder ErrPayload := ⟨fun s => DecodeResult.fail "x" s⟩

/-- A decoder for a discarded target. -/
def sampleUnitDec : Decoder Unit := ⟨fun _ => DecodeResult.ok () ""⟩

/-- Witness for C10 on a 500 response whose body does not parse. -/
theorem decodeResponse_copies_agree_witness :
    (∀ msg rest, constFailDec.run "oops" = DecodeResult.fail msg rest → rest = "oops") ∧
    DecodeResponseGo constFailDec (some sampleUnitDec) { statusCode := 500, body := "oops" }
      = DecodeResponsePart006 constFailDec (some sampleUnitDec) { statusCode := 500, body := "oops" } :=
  ⟨fun _ rest h => by simp [constFailDec] at h; exact h.2.symm,
   decodeResponse_copies_agree constFailDec sampleUnitDec { statusCode := 500, body := "oops" }
     (fun _ rest h => by simp [constFailDec] at h; exact h.2.symm)⟩

/-- Counterexample for C10 as stated: on a success response with a nil
target the copies disagree; request.go returns success, the second copy
feeds nil to the JSON decoder and fails. -/
theorem decodeResponse_copies_nil_target_counterexample :
    DecodeResponseGo (α := Unit) sampleErrDec none { statusCode := 200, body := "\x7b\x7d" }
      = Except.ok none ∧
    DecodeResponsePart006 (α := Unit) sampleErrDec none { statusCode := 200, body := "\x7b\x7d" }
      = Except.error (GoErr.errVal
          { statusCode := 0, errorType := ErrTypeJSON,
            description := "json: Unmarshal(nil)", body := "" }) ∧
    (Except.ok none : Except GoErr (Option Unit))
      ≠ Except.error (GoErr.errVal
          { statusCode := 0, errorType := ErrTypeJSON,
            description := "json: Unmarshal(nil)", body := "" }) :=
  ⟨rfl, rfl, fun h => Except.noConfusion h⟩

end Youtube
